import Mathlib

/-!
Verification of the gitgraph commit-activity renderer (src/gitgraph/main.py).

Shallow embedding conventions:
* Calendar dates are modelled as integers (day ordinals); Python date
  subtraction `(d2 - d1).days` becomes integer subtraction, and adding a
  one-day timedelta becomes `+ 1`.  `toString` on a date ordinal stands for
  the ISO rendering `str(date)` used in the SVG tooltip.
* The commits walked by `repo.walk(last.id, pygit2.GIT_SORT_TIME)` are
  modelled as the list of their calendar dates, in walk order.
* Python float arithmetic on the small quantities involved (ratios of
  commit counts, the canvas width) is modelled with exact rationals.
* Code that raises (`max([])`, the `None` start date of an empty history)
  is modelled with `Option`: `none` means the Python code raises before
  producing a value.
* `print(s, file=f)` is modelled by appending the line to the first list of
  the result; the bare `print('</svg>')` at the end of `draw_activity`
  (which goes to `sys.stdout`, not to `f`) appends to the second list.
-/

/-- One element of the `continuous_days_commits` list built by
`retrieve_repo_activity`: a calendar date together with the number of
commits on that date (the dict `{'date': day, 'commits': commits}`). -/
structure DayBucket where
  date : Int
  commits : Nat
  deriving DecidableEq

/-- `days_range(start, end)` from main.py lines 8-25: `delta = end - start`;
iterate `abs(delta.days) + 1` times with `offset` running 0,1,2,...;
yield `start + offset` when `delta.days > 0`, else `start - offset`. -/
def days_range (start stop : Int) : List Int :=
  let delta := stop - start
  (List.range (delta.natAbs + 1)).map
    (fun (i : ℕ) => if 0 < delta then start + (i : Int) else start - (i : Int))

/-- `compute_color(nb, m)` from main.py lines 28-61.  The ordered dict of
thresholds is iterated in insertion order (descending thresholds) and the
first strictly exceeded threshold wins; `ratio = nb / m` when `m > 0`,
otherwise `ratio = 0`; default color `eee`; result is `'#' + color`. -/
def compute_color (nb m : Nat) : String :=
  let ratio : ℚ := if 0 < m then (nb : ℚ) / (m : ℚ) else 0
  let color : String :=
    if ratio > 3/4 then "1e6823"
    else if ratio > 1/2 then "44a340"
    else if ratio > 1/4 then "8cc665"
    else if ratio > 0 then "d6e685"
    else "eee"
  "#" ++ color

/-- Darkness level of each of the five fixed colors: 0 is the neutral
no-activity gray, 4 the darkest green. -/
def color_tier (c : String) : Nat :=
  if c = "#1e6823" then 4
  else if c = "#44a340" then 3
  else if c = "#8cc665" then 2
  else if c = "#d6e685" then 1
  else 0

/-- The count stored in `per_day_commits[delta]['commits']` after the walk
loop of `retrieve_repo_activity` (main.py lines 83-97): the number of
walked commits whose date `c` satisfies `(today - c).days = delta`. -/
def per_day_count (commits : List Int) (today delta : Int) : Nat :=
  commits.count (today - delta)

/-- The bucket appended for `day` in the fill loop of
`retrieve_repo_activity` (main.py lines 110-122): `delta = (last - day).days`;
if `delta` is a key of `per_day_commits` take its stored count, else 0. -/
def day_bucket (commits : List Int) (today day : Int) : DayBucket :=
  if per_day_count commits today (today - day) = 0 then ⟨day, 0⟩
  else ⟨day, per_day_count commits today (today - day)⟩

/-- The parts of the dict returned by `retrieve_repo_activity` that the
rest of the program consumes. -/
structure Activity where
  continuous_days_commits : List DayBucket
  nb_commits : Nat
  deriving DecidableEq

/-- `retrieve_repo_activity` (main.py lines 64-125) on the walked commit
dates.  `previous_date` after the loop is the date of the LAST walked
commit, and becomes `first`; for an empty walk it stays `None` and
`days_range(None, today)` raises a `TypeError`, modelled by `none`.
The returned `continuous_days_commits` is `reversed(...)`, hence
most-recent-first; `nb_commits` is incremented once per walked commit. -/
def retrieve_repo_activity (commits : List Int) (today : Int) : Option Activity :=
  match commits.getLast? with
  | none => none
  | some first =>
      some { continuous_days_commits :=
               ((days_range first today).map (day_bucket commits today)).reverse
             nb_commits := commits.length }

/-- The commit-count phrase of a tooltip: `'{} commits'.format(day['commits'])`
(main.py line 172) — the plural form is used for every count. -/
def commit_phrase (n : Nat) : String := toString n ++ " commits"

/-- The document header emitted by `draw_activity` (main.py lines 151-156),
with the width and height numbers substituted for the format placeholders. -/
def svg_header (w h : Nat) : String :=
  "<?xml version=\"1.0\" encoding=\"utf-8\" ?>"
    ++ "<svg xmlns=\"http://www.w3.org/2000/svg\" width=\"" ++ toString w
    ++ "\" height=\"" ++ toString h ++ "\"><title>test</title>"

/-- The per-day group emitted by `draw_activity` (main.py lines 164-175):
the format string with x, y, fill color, optional stroke style, date and
commit-count phrase substituted. -/
def gcell (x y : Nat) (color stroke : String) (d : Int) (phrase : String) : String :=
  ("<g><rect x=\"" ++ toString x ++ "\" y=\"" ++ toString y
      ++ "\" width=\"10\" height=\"10\" style=\"fill:" ++ color ++ ";" ++ stroke ++ "\" />")
    ++ ("<title>" ++ (toString d ++ ("\n" ++ (phrase ++ "</title></g>"))))

/-- The windowing step `days = list(reversed(days))[-(weeks*7):]` of
`draw_activity` (main.py lines 137-138) with `weeks = 24`: the sliced
Python negative index, keeping the last `24*7` elements (or all of them),
is `drop (length - 24*7)` with truncated subtraction. -/
def render_window (days : List DayBucket) : List DayBucket :=
  days.reverse.drop (days.reverse.length - 24 * 7)

/-- `max_commits = max([d['commits'] for d in days])` (main.py line 143)
for a non-empty window; the fold with 0 equals the Python max because the
counts are non-negative. -/
def max_in_window (days : List DayBucket) : Nat :=
  (days.map DayBucket.commits).foldl Nat.max 0

/-- `height = int(box_height * (vertical_boxes + spacing))` (main.py line 147). -/
def svg_height : Nat := 11 * (7 + 2)

/-- `width = int((len(days) / vertical_boxes + 1) * (box_width + spacing))`
(main.py line 148): true division makes this a rational, truncated by
`int(...)` (the value is positive, so truncation is the floor). -/
def svg_width (n : Nat) : Nat :=
  (Int.floor (((n : ℚ) / 7 + 1) * (11 + 2))).toNat

/-- The group line printed for position `n` of the windowed day list of
length `len` (main.py lines 158-176): `x = int(n / 7) * (11 + 2)`,
`y = (n % 7) * (11 + 2)`, fill from `compute_color`, a red stroke exactly
on the last position, and the tooltip with date and commit phrase. -/
def cell_line (len m n : Nat) (b : DayBucket) : String :=
  gcell ((n / 7) * (11 + 2)) ((n % 7) * (11 + 2))
    (compute_color b.commits m)
    (if n = len - 1 then "stroke-width:1px;stroke:red" else "")
    b.date (commit_phrase b.commits)

/-- `draw_activity(days, f)` (main.py lines 128-177), modelled as the pair
(lines printed to `f`, lines printed to the process standard output).
An empty window raises `ValueError` at `max([])` before anything is
printed, modelled by `none`.  Note the closing tag: the source has
`print('</svg>')` WITHOUT `file=f`, so the footer line goes to
`sys.stdout` (second component), not to the sink `f` (first component). -/
def draw_activity (days0 : List DayBucket) : Option (List String × List String) :=
  if (render_window days0).isEmpty then none
  else
    some (svg_header (svg_width (render_window days0).length) svg_height
            :: (render_window days0).enum.map
                 (fun p => cell_line (render_window days0).length
                    (max_in_window (render_window days0)) p.1 p.2),
          ["</svg>"])

/-- Shared helper: `compute_color` with the rational threshold comparisons
turned into equivalent integer comparisons (valid because the thresholds
0.75, 0.5, 0.25, 0 and the quotient nb/m are compared exactly). -/
lemma compute_color_eq (nb m : Nat) :
    compute_color nb m =
      if 0 < m ∧ 3 * m < 4 * nb then "#1e6823"
      else if 0 < m ∧ m < 2 * nb then "#44a340"
      else if 0 < m ∧ m < 4 * nb then "#8cc665"
      else if 0 < m ∧ 0 < nb then "#d6e685"
      else "#eee" := by
  rcases Nat.eq_zero_or_pos m with hm | hm
  · subst hm
    simp only [compute_color]
    norm_num
    rfl
  · have hq : (0 : ℚ) < (m : ℚ) := by exact_mod_cast hm
    have h1 : ((3 : ℚ)/4 < (nb : ℚ)/(m : ℚ)) ↔ 3 * m < 4 * nb := by
      rw [div_lt_div_iff (by norm_num) hq,
        show ((3 : ℚ) * (m : ℚ)) = ((3 * m : ℕ) : ℚ) by push_cast; ring,
        show ((nb : ℚ) * 4) = ((4 * nb : ℕ) : ℚ) by push_cast; ring]
      exact Nat.cast_lt
    have h2 : ((1 : ℚ)/2 < (nb : ℚ)/(m : ℚ)) ↔ m < 2 * nb := by
      rw [div_lt_div_iff (by norm_num) hq,
        show ((1 : ℚ) * (m : ℚ)) = ((m : ℕ) : ℚ) by push_cast; ring,
        show ((nb : ℚ) * 2) = ((2 * nb : ℕ) : ℚ) by push_cast; ring]
      exact Nat.cast_lt
    have h3 : ((1 : ℚ)/4 < (nb : ℚ)/(m : ℚ)) ↔ m < 4 * nb := by
      rw [div_lt_div_iff (by norm_num) hq,
        show ((1 : ℚ) * (m : ℚ)) = ((m : ℕ) : ℚ) by push_cast; ring,
        show ((nb : ℚ) * 4) = ((4 * nb : ℕ) : ℚ) by push_cast; ring]
      exact Nat.cast_lt
    have h4 : ((0 : ℚ) < (nb : ℚ)/(m : ℚ)) ↔ 0 < nb := by
      constructor
      · intro h
        rcases Nat.eq_zero_or_pos nb with h0 | h0
        · subst h0; simp at h
        · exact h0
      · intro h
        exact div_pos (by exact_mod_cast h) hq
    simp only [compute_color, hm, if_true, gt_iff_lt, h1, h2, h3, h4, true_and]
    split_ifs <;> rfl

/-- Shared helper: ascending case of `days_range`. -/
lemma days_range_asc (s e : Int) (h : s ≤ e) :
    days_range s e = (List.range ((e - s).natAbs + 1)).map (fun (i : ℕ) => s + (i : Int)) := by
  unfold days_range
  apply List.map_congr_left
  intro i hi
  by_cases hd : 0 < e - s
  · simp [hd]
  · have h0 : e - s = 0 := by omega
    have hi0 : i = 0 := by
      rw [h0] at hi
      simpa using hi
    simp [hd, hi0]

/-- Shared helper: descending case of `days_range`. -/
lemma days_range_desc (s e : Int) (h : e < s) :
    days_range s e = (List.range ((e - s).natAbs + 1)).map (fun (i : ℕ) => s - (i : Int)) := by
  unfold days_range
  apply List.map_congr_left
  intro i hi
  have hd : ¬ 0 < e - s := by omega
  simp [hd]

/-- Claim C10: for every pair of dates, `days_range start stop` yields exactly
`natAbs (stop - start) + 1` dates (and, being a total function, never raises):
for `start ≤ stop` the consecutive dates `start, start+1, ..., stop` in
ascending order, and for `start > stop` the consecutive dates
`start, start-1, ..., stop` in descending order. -/
theorem days_range_spec (s e : Int) :
    (days_range s e).length = (e - s).natAbs + 1 ∧
    (s ≤ e → days_range s e = (List.range ((e - s).natAbs + 1)).map (fun (i : ℕ) => s + (i : Int))) ∧
    (e < s → days_range s e = (List.range ((e - s).natAbs + 1)).map (fun (i : ℕ) => s - (i : Int))) := by
  refine ⟨?_, days_range_asc s e, days_range_desc s e⟩
  unfold days_range
  rw [List.length_map, List.length_range]

/-- Witness for C10 at concrete inputs 0 ≤ 2 and 2 > 0. -/
theorem days_range_spec_witness : days_range 0 2 = [0, 1, 2] ∧ days_range 2 0 = [2, 1, 0] := by
  have h1 := (days_range_spec 0 2).2.1 (by norm_num)
  have h2 := (days_range_spec 2 0).2.2 (by norm_num)
  rw [h1, h2]
  decide

/-- Claim C6: `compute_color` computes `ratio = nb / m` (0 when `m = 0`) and
maps it through strict thresholds in descending order; the comparisons
`ratio > 3/4`, `ratio > 1/2`, `ratio > 1/4`, `ratio > 0` are stated here in
the equivalent cross-multiplied integer form (`m > 0` cases), and a zero
maximum yields the neutral `#eee` for every cell with no division error
(`compute_color` is total; `ratio` is defined to be 0 when `m = 0`). -/
theorem compute_color_spec (nb m : Nat) :
    compute_color nb m =
      (if 0 < m ∧ 3 * m < 4 * nb then "#1e6823"
       else if 0 < m ∧ m < 2 * nb then "#44a340"
       else if 0 < m ∧ m < 4 * nb then "#8cc665"
       else if 0 < m ∧ 0 < nb then "#d6e685"
       else "#eee") ∧
    compute_color nb 0 = "#eee" := by
  refine ⟨compute_color_eq nb m, ?_⟩
  rw [compute_color_eq]
  norm_num

/-- Claim C7: for a fixed window maximum `m`, a day with strictly more
commits is never assigned a strictly lighter color tier: the tier is
monotone non-decreasing in the commit count. -/
theorem color_tier_monotone (a b m : Nat) (h : b < a) :
    color_tier (compute_color b m) ≤ color_tier (compute_color a m) := by
  rw [compute_color_eq, compute_color_eq]
  split_ifs <;> first | decide | (exfalso; omega)

/-- Witness for C7 at commit counts 2 > 1 against window maximum 2. -/
theorem color_tier_monotone_witness :
    color_tier (compute_color 1 2) ≤ color_tier (compute_color 2 2) :=
  color_tier_monotone 2 1 2 (by norm_num)

/-- Shared helper: the bucket built for a day always stores the exact number
of walked commits dated that day (both branches of the membership test in
the fill loop agree with the count, the absent case giving 0). -/
lemma day_bucket_eq (l : List Int) (t d : Int) :
    day_bucket l t d = ⟨d, l.count d⟩ := by
  unfold day_bucket per_day_count
  rw [sub_sub_cancel]
  split_ifs with h
  · rw [h]
  · rfl

/-- Claim C9: an empty commit sequence makes the aggregation raise
(`days_range(None, today)` raises a `TypeError` because `previous_date`
was never set), so no timeline is produced; and the renderer on an empty
day list raises at `max([])` before printing anything, so no SVG document
is emitted at all. -/
theorem empty_history_fails (today : Int) :
    retrieve_repo_activity [] today = none ∧ draw_activity [] = none :=
  ⟨rfl, rfl⟩

/-- Counterexample for C3 as frozen: `[1, 0]` and `[0, 1]` are permutations
of the same timestamp multiset, yet the produced Timelines differ, because
`first` is taken from the LAST walked commit (`previous_date`), which the
permutation moves. -/
theorem retrieve_not_perm_invariant :
    ([1, 0] : List Int).Perm [0, 1] ∧
    retrieve_repo_activity [1, 0] 1 ≠ retrieve_repo_activity [0, 1] 1 := by
  constructor
  · decide
  · decide

/-- Claim C3 amended: permuting the walked timestamps produces an identical
Timeline PROVIDED the permutation keeps the date of the final walked commit
(the `previous_date` that becomes `first`) unchanged; the per-day counts and
the total are order-independent, but the start of the day range is not. -/
theorem retrieve_perm_invariant (l₁ l₂ : List Int) (d : Int)
    (hp : l₁.Perm l₂) (hl : l₁.getLast? = l₂.getLast?) :
    retrieve_repo_activity l₁ d = retrieve_repo_activity l₂ d := by
  unfold retrieve_repo_activity
  rw [hl]
  have hb : day_bucket l₁ d = day_bucket l₂ d := by
    funext x
    rw [day_bucket_eq, day_bucket_eq, hp.count_eq]
  rw [hb, hp.length_eq]

/-- Witness for C3 amended: two nontrivial permutations of the same three
timestamps with the same final element give the same Timeline. -/
theorem retrieve_perm_invariant_witness :
    retrieve_repo_activity [1, 2, 0] 5 = retrieve_repo_activity [2, 1, 0] 5 :=
  retrieve_perm_invariant [1, 2, 0] [2, 1, 0] 5 (by decide) (by decide)

/-- Shared helper: mapping the date field over the buckets of the fill loop
gives back the day range itself. -/
lemma timeline_dates (commits : List Int) (today first : Int) :
    ((days_range first today).map (day_bucket commits today)).map DayBucket.date
      = days_range first today := by
  rw [List.map_map]
  have hcomp : (DayBucket.date ∘ day_bucket commits today) = fun d => d := by
    funext d
    rw [Function.comp_apply, day_bucket_eq]
  rw [hcomp, List.map_id']

/-- Counterexample for C4 as frozen: the walk order `[0, 1]` with today = 1
(realizable under the topology-constrained time sort when a root commit has
a later timestamp than its child) produces the timeline `[⟨1, 1⟩]`: the
earliest input date 0 — not in the future, today being 1 — has NO bucket,
because `first` is taken from the last walked commit (date 1), not from the
minimum of the input dates. -/
theorem timeline_gapless_cex :
    retrieve_repo_activity [0, 1] 1 = some ⟨[⟨1, 1⟩], 2⟩ ∧
    ([0, 1] : List Int).minimum? = some 0 ∧
    (0 : Int) ∉ ([(⟨1, 1⟩ : DayBucket)] : List DayBucket).map DayBucket.date :=
  ⟨by decide, by decide, by decide⟩

/-- Claim C4 amended: for a non-empty walk whose final element carries the
earliest input date (the counterexample above shows the claim fails when it
does not), that date being on or before today (as the claim's phrase
'from the earliest date through the current date' presumes; a later one
reverses the walk direction, cf. the C5 counterexample), the Timeline has
exactly one bucket per calendar date from that earliest date through today
— no duplicates, no gaps — and every bucket (dates without commits
included) carries the exact count of commits on its date. -/
theorem timeline_gapless (commits : List Int) (today first : Int)
    (hfirst : commits.getLast? = some first)
    (hmin : ∀ c ∈ commits, first ≤ c)
    (hle : first ≤ today) :
    ∃ a, retrieve_repo_activity commits today = some a ∧
      (a.continuous_days_commits.map DayBucket.date).Nodup ∧
      (∀ d : Int, d ∈ a.continuous_days_commits.map DayBucket.date ↔ first ≤ d ∧ d ≤ today) ∧
      ∀ b ∈ a.continuous_days_commits, b.commits = commits.count b.date := by
  have hn : (((today - first).natAbs : ℕ) : Int) = today - first :=
    Int.natAbs_of_nonneg (by omega)
  unfold retrieve_repo_activity
  rw [hfirst]
  refine ⟨_, rfl, ?_, ?_, ?_⟩
  · rw [List.map_reverse, List.nodup_reverse, timeline_dates,
      days_range_asc first today hle]
    refine List.Nodup.map ?_ (List.nodup_range _)
    intro a b hab
    dsimp only at hab
    omega
  · intro d
    rw [List.map_reverse, List.mem_reverse, timeline_dates,
      days_range_asc first today hle]
    simp only [List.mem_map, List.mem_range]
    constructor
    · rintro ⟨i, hi, rfl⟩
      omega
    · rintro ⟨h1, h2⟩
      exact ⟨(d - first).toNat, by omega, by omega⟩
  · intro b hb
    rw [List.mem_reverse, List.mem_map] at hb
    obtain ⟨d, hd, rfl⟩ := hb
    rw [day_bucket_eq]

/-- Witness for C4: commits on days 1 and 0 (walked newest-first), today
being day 2. -/
theorem timeline_gapless_witness :
    ∃ a, retrieve_repo_activity [1, 0] 2 = some a ∧
      (a.continuous_days_commits.map DayBucket.date).Nodup ∧
      (∀ d : Int, d ∈ a.continuous_days_commits.map DayBucket.date ↔ 0 ≤ d ∧ d ≤ 2) ∧
      ∀ b ∈ a.continuous_days_commits, b.commits = ([1, 0] : List Int).count b.date :=
  timeline_gapless [1, 0] 2 0 (by decide) (by decide) (by decide)

/-- Shared helper: sums of pointwise sums split. -/
lemma sum_map_add {α : Type} (l : List α) (f g : α → Nat) :
    (l.map (fun x => f x + g x)).sum = (l.map f).sum + (l.map g).sum := by
  induction l with
  | nil => rfl
  | cons a t ih =>
    simp only [List.map_cons, List.sum_cons, ih]
    omega

/-- Shared helper: over the day positions 0..n there is exactly one position
whose day equals a given date in range. -/
lemma sum_indicator_range (s a : Int) :
    ∀ (n : Nat), s ≤ a → a ≤ s + n →
      ((List.range (n + 1)).map
        (fun (i : ℕ) => if a = s + (i : Int) then (1 : Nat) else 0)).sum = 1 := by
  intro n
  induction n with
  | zero =>
    intro h1 h2
    have ha : a = s := by omega
    subst ha
    simp only [List.range_succ, List.range_zero, List.nil_append, List.map_cons,
      List.map_nil, List.sum_cons, List.sum_nil]
    rw [if_pos (by omega)]
    omega
  | succ k ih =>
    intro h1 h2
    rw [List.range_succ, List.map_append, List.sum_append]
    by_cases hc : a = s + ((k + 1 : Nat) : Int)
    · have hz : ((List.range (k + 1)).map
          (fun (i : ℕ) => if a = s + (i : Int) then (1 : Nat) else 0)).sum = 0 := by
        apply List.sum_eq_zero
        intro x hx
        rw [List.mem_map] at hx
        obtain ⟨i, hi, rfl⟩ := hx
        rw [List.mem_range] at hi
        have hne : ¬ (a = s + (i : Int)) := by omega
        simp [hne]
      rw [hz]
      simp only [List.map_cons, List.map_nil, List.sum_cons, List.sum_nil]
      rw [if_pos (by omega)]
      omega
    · have h2k : a ≤ s + (k : Nat) := by omega
      rw [ih h1 h2k]
      simp only [List.map_cons, List.map_nil, List.sum_cons, List.sum_nil]
      rw [if_neg (by omega)]
      omega

/-- Shared helper: when every element of `l` lies between `s` and `s + n`,
summing the per-day counts over the day positions 0..n counts every
element exactly once. -/
lemma sum_count_range (l : List Int) (s : Int) (n : Nat)
    (h : ∀ c ∈ l, s ≤ c ∧ c ≤ s + (n : Int)) :
    ((List.range (n + 1)).map (fun (i : ℕ) => l.count (s + (i : Int)))).sum = l.length := by
  induction l with
  | nil => simp
  | cons a t ih =>
    have ha := h a (List.mem_cons_self a t)
    have ht : ∀ c ∈ t, s ≤ c ∧ c ≤ s + (n : Int) :=
      fun c hc => h c (List.mem_cons_of_mem a hc)
    have hpt : (fun (i : ℕ) => (a :: t).count (s + (i : Int)))
        = fun (i : ℕ) => t.count (s + (i : Int)) + (if a = s + (i : Int) then 1 else 0) := by
      funext i
      rw [List.count_cons]
      simp [beq_iff_eq]
    rw [hpt, sum_map_add, ih ht, sum_indicator_range s a n ha.1 ha.2]
    simp [List.length_cons]

/-- Counterexample for C5 as frozen: a commit dated AFTER today (day 2,
with today = day 1) falls outside the generated day range, so its count is
lost: the timeline sums to 1 while there were 2 input timestamps. -/
theorem count_conservation_cex :
    retrieve_repo_activity [2, 1] 1 = some ⟨[⟨1, 1⟩], 2⟩ ∧
    (([⟨1, 1⟩] : List DayBucket).map DayBucket.commits).sum = 1 ∧
    ([2, 1] : List Int).length = 2 := by
  refine ⟨by decide, by decide, rfl⟩

/-- Claim C5 amended: for a non-empty walk whose final commit carries the
earliest date and in which NO commit is dated after today, the sum of the
per-day counts over the Timeline equals the number of input timestamps
(which is also the returned `nb_commits`). -/
theorem commit_count_conserved (commits : List Int) (today first : Int)
    (hfirst : commits.getLast? = some first)
    (hmin : ∀ c ∈ commits, first ≤ c)
    (hmax : ∀ c ∈ commits, c ≤ today) :
    ∃ a, retrieve_repo_activity commits today = some a ∧
      (a.continuous_days_commits.map DayBucket.commits).sum = commits.length ∧
      a.nb_commits = commits.length := by
  have hx : first ∈ commits.getLast? := Option.mem_def.mpr hfirst
  obtain ⟨hne, heq⟩ := List.mem_getLast?_eq_getLast hx
  have hfm : first ∈ commits := heq ▸ List.getLast_mem hne
  have hle : first ≤ today := hmax first hfm
  have hn : (((today - first).natAbs : ℕ) : Int) = today - first :=
    Int.natAbs_of_nonneg (by omega)
  unfold retrieve_repo_activity
  rw [hfirst]
  refine ⟨_, rfl, ?_, rfl⟩
  rw [List.map_reverse, List.sum_reverse, List.map_map]
  have hcomp : (DayBucket.commits ∘ day_bucket commits today)
      = fun d => commits.count d := by
    funext d
    rw [Function.comp_apply, day_bucket_eq]
  rw [hcomp, days_range_asc first today hle, List.map_map]
  have hflat : ((fun d => commits.count d) ∘ fun (i : ℕ) => first + (i : Int))
      = fun (i : ℕ) => commits.count (first + (i : Int)) := rfl
  rw [hflat]
  apply sum_count_range
  intro c hc
  refine ⟨hmin c hc, ?_⟩
  have := hmax c hc
  omega

/-- Witness for C5 amended: commits on days 1 and 0 (newest-first), today
day 2 — both buckets sum to the 2 input timestamps. -/
theorem commit_count_conserved_witness :
    ∃ a, retrieve_repo_activity [1, 0] 2 = some a ∧
      (a.continuous_days_commits.map DayBucket.commits).sum = ([1, 0] : List Int).length ∧
      a.nb_commits = ([1, 0] : List Int).length :=
  commit_count_conserved [1, 0] 2 0 (by decide) (by decide) (by decide)

/-- Shared helper: dropping all but the last `k` elements of a reversed
list is the reverse of the first `k` elements. -/
lemma reverse_drop_sub {α : Type} (l : List α) (k : Nat) :
    l.reverse.drop (l.length - k) = (l.take k).reverse := by
  have h1 : l.reverse = (l.drop k).reverse ++ (l.take k).reverse := by
    rw [← List.reverse_append, List.take_append_drop]
  rw [h1]
  have h2 : l.length - k = ((l.drop k).reverse).length := by
    rw [List.length_reverse, List.length_drop]
  rw [h2, List.drop_left]

/-- Shared helper: the Python slice `list(reversed(days))[-(24*7):]` keeps
the first `24*7` elements of `days` (the most recent ones, `days` being
most-recent-first) in reversed, i.e. ascending chronological, order. -/
lemma render_window_eq (l : List DayBucket) :
    render_window l = (l.take (24 * 7)).reverse := by
  unfold render_window
  rw [List.length_reverse, reverse_drop_sub]

/-- Shared helper: what the sink receives whenever `draw_activity`
succeeds. -/
lemma draw_activity_some (days0 : List DayBucket) (sink rest : List String)
    (h : draw_activity days0 = some (sink, rest)) :
    sink = svg_header (svg_width (render_window days0).length) svg_height
        :: (render_window days0).enum.map
             (fun p => cell_line (render_window days0).length
                (max_in_window (render_window days0)) p.1 p.2) ∧
    rest = ["</svg>"] := by
  unfold draw_activity at h
  by_cases he : (render_window days0).isEmpty
  · rw [if_pos he] at h
    cases h
  · rw [if_neg he] at h
    simp only [Option.some.injEq, Prod.mk.injEq] at h
    exact ⟨h.1.symm, h.2.symm⟩

/-- Shared helper: the width of a one-cell canvas,
`int((1 / 7 + 1) * 13) = int(14.857...) = 14`. -/
lemma svg_width_one : svg_width 1 = 14 := by
  unfold svg_width
  norm_num [Int.floor_eq_iff]
  decide

/-- Shared helper: full evaluation of `draw_activity` on a single bucket
with one commit on day 0. -/
lemma draw_one :
    draw_activity [⟨0, 1⟩] =
      some ([svg_header 14 99,
             gcell 0 0 "#1e6823" "stroke-width:1px;stroke:red" 0 (commit_phrase 1)],
            ["</svg>"]) := by
  have hcol : compute_color 1 1 = "#1e6823" := by
    rw [compute_color_eq]
    norm_num
  have hw : render_window [⟨0, 1⟩] = [⟨0, 1⟩] := by decide
  unfold draw_activity
  rw [hw, if_neg (by decide)]
  have he : ([⟨0, 1⟩] : List DayBucket).enum = [(0, ⟨0, 1⟩)] := by decide
  rw [he]
  have hlen : ([(⟨0, 1⟩ : DayBucket)] : List DayBucket).length = 1 := rfl
  rw [hlen, svg_width_one, List.map_cons, List.map_nil]
  have hm : max_in_window [⟨0, 1⟩] = 1 := by decide
  simp only [cell_line, hm, hcol]
  decide

/-- Claim C1 (code bug): on a non-empty day list, the sink `f` receives the
document header and every per-day cell group but NOT the closing `</svg>`
footer — the final `print('</svg>')` in the source lacks `file=f`, so the
footer goes to the process standard output instead.  Evaluated at the
failing input `[one day with one commit]`. -/
theorem svg_footer_to_stdout :
    draw_activity [⟨0, 1⟩] =
      some ([svg_header 14 99,
             gcell 0 0 "#1e6823" "stroke-width:1px;stroke:red" 0 (commit_phrase 1)],
            ["</svg>"]) ∧
    "</svg>" ∉ [svg_header 14 99,
                gcell 0 0 "#1e6823" "stroke-width:1px;stroke:red" 0 (commit_phrase 1)] ∧
    "</svg>" ∈ ["</svg>"] := by
  refine ⟨draw_one, by decide, by decide⟩

/-- Counterexample for C2 as frozen: the emitted commit-count phrase is
`'{} commits'` for EVERY count; a bucket with exactly 1 commit gets the
phrase `1 commits`, not the singular `1 commit`. -/
theorem tooltip_phrase_plural_for_one :
    commit_phrase 1 = "1 commits" ∧ ("1 commits" : String) ≠ "1 commit" ∧
    draw_activity [⟨0, 1⟩] =
      some ([svg_header 14 99,
             gcell 0 0 "#1e6823" "stroke-width:1px;stroke:red" 0 (commit_phrase 1)],
            ["</svg>"]) :=
  ⟨rfl, by decide, draw_one⟩

/-- Claim C2 amended: every rendered day bucket gets a tooltip containing
its calendar date and the commit-count phrase `N commits` — the plural
form for every count N, including N = 1. -/
theorem tooltip_text (days0 : List DayBucket) (sink rest : List String)
    (h : draw_activity days0 = some (sink, rest)) (k : Nat) (b : DayBucket)
    (hb : (render_window days0).get? k = some b) :
    ∃ s, sink.get? (k + 1) =
        some (s ++ ("<title>" ++ (toString b.date ++ ("\n"
          ++ (commit_phrase b.commits ++ "</title></g>"))))) ∧
      commit_phrase b.commits = toString b.commits ++ " commits" := by
  obtain ⟨hs, -⟩ := draw_activity_some days0 sink rest h
  subst hs
  rw [List.get?_cons_succ, List.get?_map, List.get?_enum, hb]
  exact ⟨_, rfl, rfl⟩

/-- Witness for C2 amended, at the one-bucket input with a single commit:
the second sink line carries the tooltip `0\n1 commits`. -/
theorem tooltip_text_witness :
    ∃ s, ([svg_header 14 99,
           gcell 0 0 "#1e6823" "stroke-width:1px;stroke:red" 0 (commit_phrase 1)] :
             List String).get? 1 =
        some (s ++ ("<title>" ++ (toString (0 : Int) ++ ("\n"
          ++ (commit_phrase 1 ++ "</title></g>"))))) ∧
      commit_phrase 1 = toString 1 ++ " commits" :=
  tooltip_text [⟨0, 1⟩]
    [svg_header 14 99, gcell 0 0 "#1e6823" "stroke-width:1px;stroke:red" 0 (commit_phrase 1)]
    ["</svg>"] draw_one 0 ⟨0, 1⟩ (by decide)

/-- Claim C8: for a non-empty day list given most-recent-first, the window
is exactly the most recent `min (24*7) n` buckets restored to ascending
order (`take` then `reverse`), and the cell at 0-based position `k` is
emitted at `x = (k div 7) * (11+2)`, `y = (k mod 7) * (11+2)`. -/
theorem grid_layout (days0 : List DayBucket) (h : days0 ≠ []) :
    draw_activity days0 =
      some (svg_header (svg_width (min (24 * 7) days0.length)) svg_height
              :: ((days0.take (24 * 7)).reverse.enum.map fun p =>
                    gcell ((p.1 / 7) * (11 + 2)) ((p.1 % 7) * (11 + 2))
                      (compute_color p.2.commits
                        (max_in_window ((days0.take (24 * 7)).reverse)))
                      (if p.1 = min (24 * 7) days0.length - 1 then
                        "stroke-width:1px;stroke:red" else "")
                      p.2.date (commit_phrase p.2.commits)),
            ["</svg>"]) ∧
    (render_window days0).length = min (24 * 7) days0.length := by
  have hlen : (render_window days0).length = min (24 * 7) days0.length := by
    rw [render_window_eq, List.length_reverse, List.length_take]
  have hne : ¬ (render_window days0).isEmpty = true := by
    rw [render_window_eq]
    simp only [List.isEmpty_iff, List.reverse_eq_nil_iff]
    intro hc
    rcases List.take_eq_nil_iff.mp hc with h0 | h0
    · exact absurd h0 (by norm_num)
    · exact h h0
  refine ⟨?_, hlen⟩
  unfold draw_activity
  rw [if_neg hne, hlen, render_window_eq]
  simp only [cell_line]

/-- Witness for C8: a singleton day list renders (the window has length
`min (24*7) 1 = 1`) and produces a document. -/
theorem grid_layout_witness :
    draw_activity [(⟨0, 1⟩ : DayBucket)] ≠ none ∧
    (render_window [(⟨0, 1⟩ : DayBucket)]).length = min (24 * 7) 1 := by
  have h := grid_layout [⟨0, 1⟩] (by decide)
  constructor
  · rw [h.1]
    simp
  · exact h.2
